import Mathlib

/-!
The response envelope and its builder

A shallow embedding of the Go package `httpstd` (files `response.go`,
`response_error.go`, `response_builder.go`) and, further down, of its earlier
generation, the package `http_std`.

Conventions of the embedding

* A Go slice is an `Option (List α)`: `none` is the nil slice, `some xs` a
  non-nil slice holding `xs` (`some []` is the empty, non-nil slice).  Slices
  are compared by their contents; the sharing of backing arrays is not modelled.
* `interface{}` for the payload is `Option δ`: `none` is the nil interface
  value, `some d` a non-nil dynamic value `d`.
* `error` is `Option ε`: `none` is nil.
* `*Response` is `Option (Response δ)`: `none` is the nil pointer.  An
  operation that dereferences the pointer returns `none` (the Go program
  panics) when the pointer is nil.
* `time.Now()` is an explicit argument `now` of every operation that reads
  the clock.
* The callback of `Send` and the sink of `Write` act on an outside world of
  type `ω`, which is threaded explicitly.
* `int` and `int64` are `Int`; the package does no arithmetic on them.
-/

namespace httpstd

/-- An instant read from the wall clock (`time.Time`). -/
abbrev Time := Nat

/-- The builtin `len` on a slice. -/
def len {α : Type} : Option (List α) → Nat
  | none => 0
  | some xs => xs.length

/-- The builtin `append(s, xs...)` on slices, by contents: appending nothing to
the nil slice gives the nil slice, every other case gives a non-nil slice. -/
def goAppend {α : Type} (s xs : Option (List α)) : Option (List α) :=
  match s with
  | some old => some (old ++ xs.getD [])
  | none => if len xs > 0 then some (xs.getD []) else none

/-- The constant `http.StatusOK`. -/
def StatusOK : Int := 200

/-! ## response_error.go -/

/-- ResponseError defines the error information may be contained in the Response. -/
structure ResponseError where
  Code : Int
  Reason : String
deriving DecidableEq, Repr

/-! ## response.go -/

/-- Response defines the standard envelope. -/
structure Response (δ : Type) where
  Success : Bool
  Timestamp : Time
  Message : String
  Errors : Option (List ResponseError)
  Data : Option δ
deriving DecidableEq, Repr

/-- EmptyResponse creates a new empty Response; `now` is the value of `time.Now()`. -/
def EmptyResponse {δ : Type} (now : Time) : Response δ :=
  { Success := true
    Timestamp := now
    Message := ""
    Errors := none
    Data := none }

/-- GetMessage returns the message and whether it exists. -/
def Response.GetMessage {δ : Type} (response : Response δ) : String × Bool :=
  (response.Message, decide (response.Message.utf8ByteSize > 0))

/-- GetErrors returns the errors and whether they exist. -/
def Response.GetErrors {δ : Type} (response : Response δ) :
    Option (List ResponseError) × Bool :=
  (response.Errors, response.Errors.isSome && decide (len response.Errors > 0))

/-- GetData returns the data and whether it exists. -/
def Response.GetData {δ : Type} (response : Response δ) : Option δ × Bool :=
  (response.Data, response.Data.isSome)

/-! ## response_builder.go -/

/-- The type `JSONEncoder`: the bytes and the error returned for a value. -/
abbrev JSONEncoder (δ ε : Type) := Response δ → List Nat × Option ε

/-- The type `SendFunc`: called with a status code and a value, it acts on the
outside world and returns an error. -/
abbrev SendFunc (δ ε ω : Type) := Int → Response δ → ω → Option ε × ω

/-- The three operations of `http.ResponseWriter` that the package uses, on a
sink whose state is `ω`: `Header().Set(key, value)`, `WriteHeader(statusCode)`
and `Write(data)`, the last returning the byte count and the error. -/
structure ResponseWriter (ε ω : Type) where
  HeaderSet : String → String → ω → ω
  WriteHeader : Int → ω → ω
  Write : List Nat → ω → (Int × Option ε) × ω

/-- The builder state `responseBuilderContext`. -/
structure responseBuilderContext (δ ε : Type) where
  encodeJSON : JSONEncoder δ ε
  defaultStatusCode : Int
  statusCode : Int
  response : Option (Response δ)

/-- NewResponse creates a new builder.  `jsonMarshal` stands for
`encoding/json.Marshal`, `statusCode` is the variadic argument. -/
def NewResponse {δ ε : Type} (jsonMarshal : JSONEncoder δ ε) (statusCode : List Int)
    (now : Time) : responseBuilderContext δ ε :=
  let defaultStatusCode :=
    match statusCode with
    | [] => StatusOK
    | first :: _ => first
  { encodeJSON := jsonMarshal
    defaultStatusCode := defaultStatusCode
    statusCode := defaultStatusCode
    response := some (EmptyResponse now) }

namespace responseBuilderContext

variable {δ ε ω : Type}

/-- SetErrors sets the Errors of the Response. -/
def SetErrors (context : responseBuilderContext δ ε)
    (errors : Option (List ResponseError)) : Option (responseBuilderContext δ ε) :=
  match context.response with
  | none => none
  | some response =>
    let response := if len errors > 0 then { response with Success := false } else response
    some { context with response := some { response with Errors := errors } }

/-- AppendErrors adds multiple ResponseError to the Response. -/
def AppendErrors (context : responseBuilderContext δ ε)
    (errors : Option (List ResponseError)) : Option (responseBuilderContext δ ε) :=
  match context.response with
  | none => none
  | some response =>
    if response.Errors.isNone then
      context.SetErrors errors
    else
      context.SetErrors (goAppend response.Errors errors)

/-- AppendError adds a ResponseError to the Response. -/
def AppendError (context : responseBuilderContext δ ε) (code : Int) (reason : String) :
    Option (responseBuilderContext δ ε) :=
  context.AppendErrors (some [{ Code := code, Reason := reason }])

/-- Clean all the information set to the Response in the current context. -/
def Clean (context : responseBuilderContext δ ε) (statusCode : List Int) (now : Time) :
    responseBuilderContext δ ε :=
  let defaultStatusCode :=
    match statusCode with
    | [] => context.defaultStatusCode
    | first :: _ => first
  { context with statusCode := defaultStatusCode, response := some (EmptyResponse now) }

/-- Build returns the copy of the Response and calls `Clean()`. -/
def Build (context : responseBuilderContext δ ε) (now : Time) :
    Option (Response δ × responseBuilderContext δ ε) :=
  match context.response with
  | none => none
  | some response => some (response, context.Clean [] now)

/-- SetData sets the Data of the Response. -/
def SetData (context : responseBuilderContext δ ε) (data : Option δ) :
    Option (responseBuilderContext δ ε) :=
  match context.response with
  | none => none
  | some response => some { context with response := some { response with Data := data } }

/-- SetJSONEncoder sets the encoder used by `Write`; `none` is the nil function. -/
def SetJSONEncoder (context : responseBuilderContext δ ε)
    (encoder : Option (JSONEncoder δ ε)) : responseBuilderContext δ ε :=
  match encoder with
  | some f => { context with encodeJSON := f }
  | none => context

/-- SetMessage sets the Message of the Response. -/
def SetMessage (context : responseBuilderContext δ ε) (message : String) :
    Option (responseBuilderContext δ ε) :=
  match context.response with
  | none => none
  | some response =>
    some { context with response := some { response with Message := message } }

/-- SetStatusCode sets the status code. -/
def SetStatusCode (context : responseBuilderContext δ ε) (statusCode : Int) :
    responseBuilderContext δ ε :=
  { context with statusCode := statusCode }

/-- Send calls `Build()` and then the callback, in the world `w`. -/
def Send (context : responseBuilderContext δ ε) (callback : SendFunc δ ε ω) (w : ω)
    (now : Time) : Option ((Option ε × ω) × responseBuilderContext δ ε) :=
  match context.Build now with
  | none => none
  | some (response, context) => some (callback context.statusCode response w, context)

/-- Write calls `Build()`, encodes the Response and writes it to the sink,
whose state is `w`. -/
def Write (context : responseBuilderContext δ ε) (writer : ResponseWriter ε ω) (w : ω)
    (now : Time) : Option (((Int × Option ε) × ω) × responseBuilderContext δ ε) :=
  match context.Build now with
  | none => none
  | some (response, context) =>
    match context.encodeJSON response with
    | (_, some err) => some (((0, some err), w), context)
    | (data, none) =>
      let w := writer.HeaderSet "Content-Type" "application/json" w
      let w := writer.WriteHeader context.statusCode w
      some (writer.Write data w, context)

end responseBuilderContext

/-! ## Sequences of builder calls -/

/-- One call of a method of the builder, with its arguments (and, where the
method reads the clock or acts on the outside world, the clock reading and the
state of the world at the call). -/
inductive Call (δ ε ω : Type) where
  | AppendError (code : Int) (reason : String)
  | AppendErrors (errors : Option (List ResponseError))
  | Build (now : Time)
  | Clean (statusCode : List Int) (now : Time)
  | SetData (data : Option δ)
  | SetErrors (errors : Option (List ResponseError))
  | SetJSONEncoder (encoder : Option (JSONEncoder δ ε))
  | SetMessage (message : String)
  | SetStatusCode (statusCode : Int)
  | Send (callback : SendFunc δ ε ω) (w : ω) (now : Time)
  | Write (writer : ResponseWriter ε ω) (w : ω) (now : Time)

/-- The builder state after one call; `none` when the call panics. -/
def Call.apply {δ ε ω : Type} (call : Call δ ε ω) (context : responseBuilderContext δ ε) :
    Option (responseBuilderContext δ ε) :=
  match call with
  | .AppendError code reason => context.AppendError code reason
  | .AppendErrors errors => context.AppendErrors errors
  | .Build now => (context.Build now).map Prod.snd
  | .Clean statusCode now => some (context.Clean statusCode now)
  | .SetData data => context.SetData data
  | .SetErrors errors => context.SetErrors errors
  | .SetJSONEncoder encoder => some (context.SetJSONEncoder encoder)
  | .SetMessage message => context.SetMessage message
  | .SetStatusCode statusCode => some (context.SetStatusCode statusCode)
  | .Send callback w now => (context.Send callback w now).map Prod.snd
  | .Write writer w now => (context.Write writer w now).map Prod.snd

/-- The builder state after a sequence of calls made in order. -/
def run {δ ε ω : Type} :
    List (Call δ ε ω) → responseBuilderContext δ ε → Option (responseBuilderContext δ ε)
  | [], context => some context
  | call :: rest, context =>
    match call.apply context with
    | none => none
    | some next => run rest next

/-- The builder state after `AppendError(code, reason)` has been called once
for each pair of the list, in the order of the list. -/
def appendErrorEach {δ ε : Type} (context : responseBuilderContext δ ε) :
    List (Int × String) → Option (responseBuilderContext δ ε)
  | [] => some context
  | (code, reason) :: rest =>
    match context.AppendError code reason with
    | none => none
    | some next => appendErrorEach next rest

/-- The values `ResponseError{code, reason}`, one for each pair of the list. -/
def errorsOf (pairs : List (Int × String)) : List ResponseError :=
  pairs.map fun p => { Code := p.1, Reason := p.2 }

/-- Whether no call of the sequence is a `SetErrors` with zero errors. -/
def noEmptySetErrors {δ ε ω : Type} : List (Call δ ε ω) → Bool
  | [] => true
  | Call.SetErrors errors :: rest => decide (len errors > 0) && noEmptySetErrors rest
  | _ :: rest => noEmptySetErrors rest

/-! ## Recording collaborators, for concrete runs -/

/-- One call received by a recording sink. -/
inductive SinkCall where
  | HeaderSet (key value : String)
  | WriteHeader (statusCode : Int)
  | Write (data : List Nat)
deriving DecidableEq, Repr

/-- A sink that records the calls it receives, oldest first, and whose write
accepts all the bytes. -/
def recordingWriter {ε : Type} : ResponseWriter ε (List SinkCall) where
  HeaderSet := fun key value w => w ++ [SinkCall.HeaderSet key value]
  WriteHeader := fun statusCode w => w ++ [SinkCall.WriteHeader statusCode]
  Write := fun data w => ((data.length, none), w ++ [SinkCall.Write data])

/-- A callback that records the arguments of each call, oldest first, and
returns no error. -/
def recordingCallback {δ ε : Type} : SendFunc δ ε (List (Int × Response δ)) :=
  fun statusCode value w => (none, w ++ [(statusCode, value)])

/-- An encoder that fails with the error `err` on every value. -/
def failingEncoder {δ ε : Type} (err : ε) : JSONEncoder δ ε :=
  fun _ => ([], some err)

/-- An encoder that succeeds on every value with the bytes `data`. -/
def constantEncoder {δ ε : Type} (data : List Nat) : JSONEncoder δ ε :=
  fun _ => (data, none)

end httpstd

/-! ## The earlier generation: package http_std

The files `response.go`, `response_error.go` and `response_builder.go` of the
directory `http-std`, under the same conventions.  A mutating method of this
generation calls `Clean()`, and so reads the clock, only when the envelope
pointer is nil: its argument `now` is the reading it would get. -/

namespace http_std

open httpstd (Time len goAppend ResponseWriter)

/-- ResponseError defines the error information may be contained in the Response. -/
structure ResponseError where
  Code : Int
  Reason : String
deriving DecidableEq, Repr

/-- Response defines the standard HTTP Response. -/
structure Response (δ : Type) where
  Success : Bool
  Timestamp : Time
  Message : String
  Errors : Option (List ResponseError)
  Data : Option δ
deriving DecidableEq, Repr

/-- EmptyResponse creates a new empty Response; `now` is the value of `time.Now()`. -/
def EmptyResponse {δ : Type} (now : Time) : Response δ :=
  { Success := true
    Timestamp := now
    Message := ""
    Errors := none
    Data := none }

/-- GetMessage returns the message and whether it exists. -/
def Response.GetMessage {δ : Type} (response : Response δ) : String × Bool :=
  (response.Message, decide (response.Message.utf8ByteSize > 0))

/-- GetErrors returns the errors and whether they exist. -/
def Response.GetErrors {δ : Type} (response : Response δ) :
    Option (List ResponseError) × Bool :=
  (response.Errors, response.Errors.isSome && decide (len response.Errors > 0))

/-- GetData returns the data and whether it exists. -/
def Response.GetData {δ : Type} (response : Response δ) : Option δ × Bool :=
  (response.Data, response.Data.isSome)

/-- The type `SendFunc`; the value it is given is the envelope pointer. -/
abbrev SendFunc (δ ε ω : Type) := Int → Option (Response δ) → ω → Option ε × ω

/-- The builder state `responseBuilderContext`. -/
structure responseBuilderContext (δ : Type) where
  response : Option (Response δ)
  statusCode : Int

/-- NewResponse creates a new builder. -/
def NewResponse {δ : Type} (now : Time) : responseBuilderContext δ :=
  { response := some (EmptyResponse now)
    statusCode := 200 }

namespace responseBuilderContext

variable {δ ε ω : Type}

/-- Clean all the information set to the Response. -/
def Clean (context : responseBuilderContext δ) (now : Time) : responseBuilderContext δ :=
  { context with response := some (EmptyResponse now) }

/-- SetErrors sets the Errors of the Response. -/
def SetErrors (context : responseBuilderContext δ) (errors : Option (List ResponseError))
    (now : Time) : Option (responseBuilderContext δ) :=
  let context := if context.response.isNone then context.Clean now else context
  match context.response with
  | none => none
  | some response =>
    some { context with response := some { response with Success := false, Errors := errors } }

/-- AppendErrors adds multiple errors to the Response. -/
def AppendErrors (context : responseBuilderContext δ) (errors : Option (List ResponseError))
    (now : Time) : Option (responseBuilderContext δ) :=
  let context := if context.response.isNone then context.Clean now else context
  match context.response with
  | none => none
  | some response =>
    if response.Errors.isNone then
      context.SetErrors errors now
    else
      context.SetErrors (goAppend response.Errors errors) now

/-- AppendError adds an error to the Response. -/
def AppendError (context : responseBuilderContext δ) (code : Int) (reason : String)
    (now : Time) : Option (responseBuilderContext δ) :=
  context.AppendErrors (some [{ Code := code, Reason := reason }]) now

/-- Build returns the Response and sets the envelope pointer to nil. -/
def Build (context : responseBuilderContext δ) :
    Option (Response δ × responseBuilderContext δ) :=
  match context.response with
  | none => none
  | some response => some (response, { context with response := none })

/-- SetData sets the Data of the Response. -/
def SetData (context : responseBuilderContext δ) (data : Option δ) (now : Time) :
    Option (responseBuilderContext δ) :=
  let context := if context.response.isNone then context.Clean now else context
  match context.response with
  | none => none
  | some response =>
    some { context with response := some { response with Success := true, Data := data } }

/-- SetMessage sets the Message of the Response. -/
def SetMessage (context : responseBuilderContext δ) (message : String) (now : Time) :
    Option (responseBuilderContext δ) :=
  let context := if context.response.isNone then context.Clean now else context
  match context.response with
  | none => none
  | some response =>
    some { context with response := some { response with Message := message } }

/-- SetStatusCode sets the status code. -/
def SetStatusCode (context : responseBuilderContext δ) (statusCode : Int) :
    responseBuilderContext δ :=
  { context with statusCode := statusCode }

/-- Send calls the callback with the status code and the envelope pointer. -/
def Send (context : responseBuilderContext δ) (callback : SendFunc δ ε ω) (w : ω) :
    Option ε × ω :=
  callback context.statusCode context.response w

/-- Write writes the status code, then the encoded envelope, to the sink;
`jsonMarshal` stands for `encoding/json.Marshal` on the envelope pointer. -/
def Write (context : responseBuilderContext δ)
    (jsonMarshal : Option (Response δ) → List Nat × Option ε) (writer : ResponseWriter ε ω)
    (w : ω) : (Int × Option ε) × ω :=
  let w := writer.WriteHeader context.statusCode w
  match jsonMarshal context.response with
  | (_, some err) => ((0, some err), w)
  | (jsonBody, none) => writer.Write jsonBody w

end responseBuilderContext

end http_std

namespace httpstd

/-! ## Lemmas shared by the theorems below -/

section lemmas

variable {δ ε ω : Type}

open responseBuilderContext

theorem NewResponse_response (jsonMarshal : JSONEncoder δ ε) (statusCode : List Int)
    (t0 : Time) : (NewResponse jsonMarshal statusCode t0).response = some (EmptyResponse t0) :=
  rfl

theorem Build_of_envelope (context : responseBuilderContext δ ε) (r : Response δ) (now : Time)
    (h : context.response = some r) :
    context.Build now = some (r, context.Clean [] now) := by
  simp [Build, h]

theorem SetErrors_of_envelope (context : responseBuilderContext δ ε) (r : Response δ)
    (errors : Option (List ResponseError)) (h : context.response = some r) :
    context.SetErrors errors = some ⟨context.encodeJSON, context.defaultStatusCode,
      context.statusCode,
      some ⟨if len errors > 0 then false else r.Success, r.Timestamp, r.Message, errors,
        r.Data⟩⟩ := by
  by_cases hl : len errors > 0 <;> simp [SetErrors, h, hl]

/-- A call made on a builder that holds an envelope returns, and the builder
holds an envelope afterwards. -/
theorem apply_keeps_envelope (call : Call δ ε ω) (context : responseBuilderContext δ ε)
    (r : Response δ) (h : context.response = some r) :
    ∃ next r2, call.apply context = some next ∧ next.response = some r2 := by
  cases call with
  | AppendError code reason =>
    by_cases hn : r.Errors.isNone <;>
      simp [Call.apply, AppendError, AppendErrors, SetErrors, h, hn]
  | AppendErrors errors =>
    by_cases hn : r.Errors.isNone <;>
      simp [Call.apply, AppendErrors, SetErrors, h, hn]
  | Build now => simp [Call.apply, Build, Clean, h]
  | Clean statusCode now => simp [Call.apply, Clean]
  | SetData data => simp [Call.apply, SetData, h]
  | SetErrors errors => simp [Call.apply, SetErrors, h]
  | SetJSONEncoder encoder =>
    cases encoder <;> simp [Call.apply, SetJSONEncoder, h]
  | SetMessage message => simp [Call.apply, SetMessage, h]
  | SetStatusCode statusCode => simp [Call.apply, SetStatusCode, h]
  | Send callback w now => simp [Call.apply, Send, Build, Clean, h]
  | Write writer w now =>
    simp only [Call.apply, Write, Build, Clean, h]
    split <;> simp

/-- Every sequence of calls made on a builder that holds an envelope runs to
its end, and the builder holds an envelope afterwards. -/
theorem run_keeps_envelope (calls : List (Call δ ε ω)) :
    ∀ (context : responseBuilderContext δ ε) (r : Response δ), context.response = some r →
      ∃ final r2, run calls context = some final ∧ final.response = some r2 := by
  induction calls with
  | nil => intro context r h; exact ⟨context, r, rfl, h⟩
  | cons call rest ih =>
    intro context r h
    obtain ⟨next, r2, hcall, hnext⟩ := apply_keeps_envelope call context r h
    obtain ⟨final, r3, hrun, hfinal⟩ := ih next r2 hnext
    exact ⟨final, r3, by simp [run, hcall, hrun], hfinal⟩

theorem AppendError_of_envelope (context : responseBuilderContext δ ε) (r : Response δ)
    (code : Int) (reason : String) (h : context.response = some r) :
    context.AppendError code reason = some ⟨context.encodeJSON, context.defaultStatusCode,
      context.statusCode,
      some ⟨false, r.Timestamp, r.Message,
        some (r.Errors.getD [] ++ [{ Code := code, Reason := reason }]), r.Data⟩⟩ := by
  cases hE : r.Errors <;> simp [AppendError, AppendErrors, SetErrors, goAppend, len, h, hE]

/-- Appending one error per pair runs to its end and extends the error
sequence by the errors of the pairs, in order. -/
theorem appendErrorEach_of_envelope (pairs : List (Int × String)) :
    ∀ (context : responseBuilderContext δ ε) (r : Response δ), context.response = some r →
      ∃ final r2, appendErrorEach context pairs = some final ∧ final.response = some r2 ∧
        r2.Errors = (if pairs = [] then r.Errors else some (r.Errors.getD [] ++ errorsOf pairs)) ∧
        final.statusCode = context.statusCode ∧
        final.defaultStatusCode = context.defaultStatusCode := by
  induction pairs with
  | nil => intro context r h; exact ⟨context, r, rfl, h, by simp, rfl, rfl⟩
  | cons p rest ih =>
    intro context r h
    obtain ⟨code, reason⟩ := p
    have hstep := AppendError_of_envelope context r code reason h
    obtain ⟨final, r2, hrun, hfinal, herrors, hs, hd⟩ := ih _ _ (rfl : (responseBuilderContext.mk
      context.encodeJSON context.defaultStatusCode context.statusCode
      (some ⟨false, r.Timestamp, r.Message,
        some (r.Errors.getD [] ++ [{ Code := code, Reason := reason }]), r.Data⟩)).response = _)
    refine ⟨final, r2, by simp [appendErrorEach, hstep, hrun], hfinal, ?_, hs, hd⟩
    rw [herrors]
    by_cases hrest : rest = []
    · subst hrest; simp [errorsOf]
    · simp [hrest, errorsOf]

theorem GetErrors_exists (r : Response δ) : r.GetErrors.2 = decide (len r.Errors > 0) := by
  cases hE : r.Errors <;> simp [Response.GetErrors, len, hE]

/-- One call keeps "errors present implies success=false", and keeps "no
errors implies success=true" unless it is a SetErrors with zero errors. -/
theorem apply_keeps_success_flag (call : Call δ ε ω) (context : responseBuilderContext δ ε)
    (r : Response δ) (h : context.response = some r)
    (hinv : len r.Errors > 0 → r.Success = false) :
    ∃ next r2, call.apply context = some next ∧ next.response = some r2 ∧
      (len r2.Errors > 0 → r2.Success = false) ∧
      (noEmptySetErrors [call] = true → (len r.Errors = 0 → r.Success = true) →
        len r2.Errors = 0 → r2.Success = true) := by
  obtain ⟨success, t, m, errors, data⟩ := r
  cases call with
  | AppendError code reason =>
    rw [Call.apply, AppendError_of_envelope context _ code reason h]
    exact ⟨_, _, rfl, rfl, by simp, by cases errors <;> simp [len]⟩
  | AppendErrors new =>
    cases errors with
    | none =>
      refine ⟨_, _, by rw [Call.apply, AppendErrors, h]; exact SetErrors_of_envelope context _ new h,
        rfl, ?_, ?_⟩
      · intro h1; simp only [gt_iff_lt] at h1; simp [h1]
      · intro _ hs h1
        have h2 : ¬ len new > 0 := by simp only at h1; omega
        simpa [h2] using hs rfl
    | some old =>
      refine ⟨_, _, by rw [Call.apply, AppendErrors, h]; exact SetErrors_of_envelope context _ _ h,
        rfl, ?_, ?_⟩
      · intro h1; simp only [gt_iff_lt] at h1; simp [h1]
      · intro _ hs h1
        have h2 : ¬ len (goAppend (some old) new) > 0 := by simp only at h1; omega
        have h3 : len (some old) = 0 := by
          simp only [goAppend, len, List.length_append] at h1 ⊢; omega
        simpa [h2] using hs h3
  | Build now =>
    exact ⟨context.Clean [] now, EmptyResponse now, by simp [Call.apply, Build, h], rfl,
      by simp [EmptyResponse, len], by simp [EmptyResponse]⟩
  | Clean statusCode now =>
    exact ⟨context.Clean statusCode now, EmptyResponse now, rfl, rfl,
      by simp [EmptyResponse, len], by simp [EmptyResponse]⟩
  | SetData d =>
    exact ⟨⟨context.encodeJSON, context.defaultStatusCode, context.statusCode,
      some ⟨success, t, m, errors, d⟩⟩, ⟨success, t, m, errors, d⟩,
      by simp [Call.apply, SetData, h], rfl, hinv, fun _ hs => hs⟩
  | SetErrors new =>
    refine ⟨_, _, by rw [Call.apply]; exact SetErrors_of_envelope context _ new h, rfl, ?_, ?_⟩
    · intro h1; simp only [gt_iff_lt] at h1; simp [h1]
    · simp only [noEmptySetErrors, Bool.and_true, decide_eq_true_eq]
      intro hnew _ hzero
      omega
  | SetJSONEncoder encoder =>
    cases encoder <;>
      exact ⟨_, _, rfl, by simpa [SetJSONEncoder] using h, hinv, fun _ hs => hs⟩
  | SetMessage message =>
    exact ⟨⟨context.encodeJSON, context.defaultStatusCode, context.statusCode,
      some ⟨success, t, message, errors, data⟩⟩, ⟨success, t, message, errors, data⟩,
      by simp [Call.apply, SetMessage, h], rfl, hinv, fun _ hs => hs⟩
  | SetStatusCode statusCode =>
    exact ⟨_, _, rfl, by simpa [SetStatusCode] using h, hinv, fun _ hs => hs⟩
  | Send callback w now =>
    exact ⟨context.Clean [] now, EmptyResponse now, by simp [Call.apply, Send, Build, h], rfl,
      by simp [EmptyResponse, len], by simp [EmptyResponse]⟩
  | Write writer w now =>
    refine ⟨context.Clean [] now, EmptyResponse now, ?_, rfl, by simp [EmptyResponse, len],
      by simp [EmptyResponse]⟩
    simp only [Call.apply, Write, Build, h]
    split <;> rfl

/-- The two properties of the success flag along a sequence of calls. -/
theorem run_keeps_success_flag (calls : List (Call δ ε ω)) :
    ∀ (context : responseBuilderContext δ ε) (r : Response δ), context.response = some r →
      (len r.Errors > 0 → r.Success = false) →
      ∃ final r2, run calls context = some final ∧ final.response = some r2 ∧
        (len r2.Errors > 0 → r2.Success = false) ∧
        (noEmptySetErrors calls = true → (len r.Errors = 0 → r.Success = true) →
          len r2.Errors = 0 → r2.Success = true) := by
  induction calls with
  | nil => intro context r h hinv; exact ⟨context, r, rfl, h, hinv, fun _ hs => hs⟩
  | cons call rest ih =>
    intro context r h hinv
    obtain ⟨next, r2, hcall, hnext, hinv2, hstrict2⟩ :=
      apply_keeps_success_flag call context r h hinv
    obtain ⟨final, r3, hrun, hfinal, hinv3, hstrict3⟩ := ih next r2 hnext hinv2
    refine ⟨final, r3, by simp [run, hcall, hrun], hfinal, hinv3, ?_⟩
    intro hno hs
    have hsplit : noEmptySetErrors [call] = true ∧ noEmptySetErrors rest = true := by
      cases call <;> simp_all [noEmptySetErrors]
    exact hstrict3 hsplit.2 (hstrict2 hsplit.1 hs)

/-- A string has a positive length in bytes exactly when it is not empty. -/
theorem utf8ByteSize_pos_iff (s : String) : s.utf8ByteSize > 0 ↔ s ≠ "" := by
  obtain ⟨cs⟩ := s
  cases cs with
  | nil => simp [String.utf8ByteSize, String.utf8ByteSize.go]
  | cons c cs =>
    have hc := Char.utf8Size_pos c
    have hne : (String.mk (c :: cs)) ≠ "" := by
      intro h
      have := congrArg String.data h
      simp at this
    simp only [String.utf8ByteSize, String.utf8ByteSize.go, gt_iff_lt, ne_eq, hne,
      not_false_eq_true, iff_true]
    omega

end lemmas

/-! ## The claims -/

section claims

variable {δ ε ω : Type}

open responseBuilderContext

/-- C1: Build returns the in-progress envelope, field for field: on every
builder that holds an envelope `r` the returned value is `r`; after every
sequence of calls made on a new builder the builder holds an envelope and
Build returns it; and `NewResponse().SetData(d).SetMessage(m).Build()`
returns success=true, message `m`, data `d` and no errors. -/
theorem C1_Build_returns_the_envelope_in_progress :
    (∀ (enc : JSONEncoder δ ε) (d s : Int) (r : Response δ) (now : Time),
      (Build ⟨enc, d, s, some r⟩ now).map Prod.fst = some r) ∧
    (∀ (jsonMarshal : JSONEncoder δ ε) (statusCode : List Int) (t0 : Time)
      (calls : List (Call δ ε ω)) (now : Time),
      ∃ context r, run calls (NewResponse jsonMarshal statusCode t0) = some context ∧
        context.response = some r ∧ (context.Build now).map Prod.fst = some r) ∧
    (∀ (jsonMarshal : JSONEncoder δ ε) (t0 now : Time) (d : Option δ) (m : String),
      (((NewResponse jsonMarshal [] t0).SetData d >>= fun c => c.SetMessage m)
          >>= fun c => c.Build now).map Prod.fst
        = some { Success := true, Timestamp := t0, Message := m, Errors := none, Data := d }) := by
  refine ⟨?_, ?_, ?_⟩
  · intro enc d s r now
    rfl
  · intro jsonMarshal statusCode t0 calls now
    obtain ⟨context, r, hrun, hr⟩ :=
      run_keeps_envelope calls (NewResponse jsonMarshal statusCode t0) (EmptyResponse t0) rfl
    exact ⟨context, r, hrun, hr, by simp [Build_of_envelope context r now hr]⟩
  · intro jsonMarshal t0 now d m
    rfl

/-- C2: after Build the builder holds a fresh empty envelope (stamped with the
clock reading of the Build) and its current status code is its default one; a
second Build made right after returns that empty envelope: success=true, empty
message, no errors, no data.  This holds on every builder that holds an
envelope, and so after every sequence of calls made on a new builder. -/
theorem C2_Build_leaves_a_fresh_builder :
    (∀ (enc : JSONEncoder δ ε) (d s : Int) (r : Response δ) (t1 t2 : Time),
      Build ⟨enc, d, s, some r⟩ t1 = some (r, ⟨enc, d, d, some (EmptyResponse t1)⟩) ∧
      Build (⟨enc, d, d, some (EmptyResponse t1)⟩ : responseBuilderContext δ ε) t2 =
        some ({ Success := true, Timestamp := t1, Message := "", Errors := none, Data := none },
          ⟨enc, d, d, some (EmptyResponse t2)⟩)) ∧
    (∀ (jsonMarshal : JSONEncoder δ ε) (statusCode : List Int) (t0 : Time)
      (calls : List (Call δ ε ω)) (t1 t2 : Time),
      ∃ context r next last, run calls (NewResponse jsonMarshal statusCode t0) = some context ∧
        context.Build t1 = some (r, next) ∧
        next.response = some (EmptyResponse t1) ∧
        next.statusCode = next.defaultStatusCode ∧
        next.defaultStatusCode = context.defaultStatusCode ∧
        next.Build t2 = some (EmptyResponse t1, last) ∧
        (EmptyResponse t1 : Response δ).Success = true ∧
        (EmptyResponse t1 : Response δ).GetMessage = ("", false) ∧
        (EmptyResponse t1 : Response δ).GetErrors = (none, false) ∧
        (EmptyResponse t1 : Response δ).GetData = (none, false)) := by
  refine ⟨?_, ?_⟩
  · intro enc d s r t1 t2
    exact ⟨rfl, rfl⟩
  · intro jsonMarshal statusCode t0 calls t1 t2
    obtain ⟨context, r, hrun, hr⟩ :=
      run_keeps_envelope calls (NewResponse jsonMarshal statusCode t0) (EmptyResponse t0) rfl
    exact ⟨context, r, context.Clean [] t1, (context.Clean [] t1).Clean [] t2, hrun,
      Build_of_envelope context r t1 hr, rfl, rfl, rfl, rfl, rfl, rfl, rfl, rfl⟩

/-- C3: what Send does.  On every builder that holds an envelope `r`, with
default status code `d` and current status code `s`, Send calls the callback
with `d` (the status code left by the reset inside Build) and `r`, not with
`s`; `NewResponse().SetStatusCode(500).Send(cb)` calls `cb` with 200. -/
theorem C3_Send_calls_back_with_the_default_status_code :
    (∀ (enc : JSONEncoder δ ε) (d s : Int) (r : Response δ) (callback : SendFunc δ ε ω)
      (w : ω) (now : Time),
      Send ⟨enc, d, s, some r⟩ callback w now =
        some (callback d r w, ⟨enc, d, d, some (EmptyResponse now)⟩)) ∧
    ((((NewResponse (constantEncoder []) [] 0 : responseBuilderContext Int String).SetStatusCode
        500).Send recordingCallback [] 1).map (fun p => p.1.2) =
      some [(200, EmptyResponse 0)]) := by
  refine ⟨?_, ?_⟩
  · intro enc d s r callback w now
    rfl
  · rfl

/-- C4: what Write does.  On every builder that holds an envelope `r`, with
default status code `d` and current status code `s`, a Write whose encoder
succeeds passes `d` (the status code left by the reset inside Build) to the
sink, not `s`; `NewResponse().SetStatusCode(500).AppendError(404, "not
found").Write(sink)` gives the sink the status 200. -/
theorem C4_Write_sets_the_default_status_code :
    (∀ (enc : JSONEncoder δ ε) (d s : Int) (r : Response δ) (writer : ResponseWriter ε ω)
      (w : ω) (now : Time),
      Write ⟨enc, d, s, some r⟩ writer w now =
        some (match enc r with
          | (_, some err) => ((0, some err), w)
          | (data, none) =>
            writer.Write data
              (writer.WriteHeader d (writer.HeaderSet "Content-Type" "application/json" w)),
          ⟨enc, d, d, some (EmptyResponse now)⟩)) ∧
    (((((NewResponse (constantEncoder [123, 125]) [] 0 :
          responseBuilderContext Int String).SetStatusCode 500).AppendError 404 "not found")
        >>= fun c => c.Write recordingWriter [] 1).map Prod.fst =
      some ((2, none), [SinkCall.HeaderSet "Content-Type" "application/json",
        SinkCall.WriteHeader 200, SinkCall.Write [123, 125]])) := by
  refine ⟨?_, ?_⟩
  · intro enc d s r writer w now
    simp only [Write, Build, Clean]
    split <;> rename_i h <;> simp [h]
  · rfl

/-- C5: when the installed encoder returns an error `e` for the envelope held
by the builder, Write returns the byte count 0 and the error `e`, and the sink
is in the state it was in before the call: none of its three operations has
been applied. -/
theorem C5_Write_with_a_failing_encoder (enc : JSONEncoder δ ε) (d s : Int) (r : Response δ)
    (writer : ResponseWriter ε ω) (w : ω) (now : Time) (data : List Nat) (e : ε)
    (h : enc r = (data, some e)) :
    (Write ⟨enc, d, s, some r⟩ writer w now).map Prod.fst = some ((0, some e), w) := by
  simp [Write, Build, Clean, h]

theorem C5_Write_with_a_failing_encoder_witness :
    (failingEncoder "marshal failed" : JSONEncoder Int String) (EmptyResponse 0) =
        ([], some "marshal failed") ∧
      (Write (⟨failingEncoder "marshal failed", 200, 500, some (EmptyResponse 0)⟩ :
          responseBuilderContext Int String) recordingWriter [] 1).map Prod.fst =
        some ((0, some "marshal failed"), []) :=
  ⟨rfl, C5_Write_with_a_failing_encoder (failingEncoder "marshal failed") 200 500
    (EmptyResponse 0) recordingWriter [] 1 [] "marshal failed" rfl⟩

/-- C6: calling AppendError once per pair of a list, in order, on a new
builder and then Build returns an envelope whose errors are the
`ResponseError{code, reason}` of the pairs, in the same order and as many; for
the empty list the envelope has no errors (the nil slice). -/
theorem C6_AppendError_keeps_the_order_of_the_calls (jsonMarshal : JSONEncoder δ ε)
    (statusCode : List Int) (t0 now : Time) (pairs : List (Int × String)) :
    ∃ context r next, appendErrorEach (NewResponse jsonMarshal statusCode t0) pairs = some context ∧
      context.Build now = some (r, next) ∧
      r.Errors = (if pairs = [] then none else some (errorsOf pairs)) ∧
      r.Errors.getD [] = errorsOf pairs ∧
      len r.Errors = pairs.length := by
  obtain ⟨context, r, hrun, hr, herrors, -, -⟩ :=
    appendErrorEach_of_envelope pairs (NewResponse jsonMarshal statusCode t0) (EmptyResponse t0) rfl
  have hE : r.Errors = (if pairs = [] then none else some (errorsOf pairs)) := by
    rw [herrors]; simp [EmptyResponse]
  refine ⟨context, r, context.Clean [] now, hrun, Build_of_envelope context r now hr, hE, ?_, ?_⟩
  · rw [hE]; by_cases hp : pairs = [] <;> simp [hp, errorsOf]
  · rw [hE]; by_cases hp : pairs = [] <;> simp [hp, errorsOf, len]

/-- C7: on a builder whose envelope has the error sequence `old`,
AppendErrors(new...) leaves the error sequence `old` followed by `new` and
changes neither the other fields of the builder nor the timestamp, message and
data of the envelope.  When the error slice is nil the result is the state
SetErrors(new...) gives; when it is empty but not nil the two results have
the same success flag and the same error sequence (AppendErrors leaves a
non-nil slice). -/
theorem C7_AppendErrors_appends_after_the_old_errors :
    (∀ (enc : JSONEncoder δ ε) (d s : Int) (r : Response δ)
      (new : Option (List ResponseError)),
      ∃ r2, AppendErrors ⟨enc, d, s, some r⟩ new = some ⟨enc, d, s, some r2⟩ ∧
        r2.Errors.getD [] = r.Errors.getD [] ++ new.getD [] ∧
        r2.Timestamp = r.Timestamp ∧ r2.Message = r.Message ∧ r2.Data = r.Data) ∧
    (∀ (enc : JSONEncoder δ ε) (d s : Int) (success : Bool) (t : Time) (m : String)
      (data : Option δ) (new : Option (List ResponseError)),
      AppendErrors ⟨enc, d, s, some ⟨success, t, m, none, data⟩⟩ new =
        SetErrors ⟨enc, d, s, some ⟨success, t, m, none, data⟩⟩ new) ∧
    (∀ (enc : JSONEncoder δ ε) (d s : Int) (success : Bool) (t : Time) (m : String)
      (data : Option δ) (new : Option (List ResponseError)),
      AppendErrors ⟨enc, d, s, some ⟨success, t, m, some [], data⟩⟩ new =
          some ⟨enc, d, s,
            some ⟨if len new > 0 then false else success, t, m, some (new.getD []), data⟩⟩ ∧
        SetErrors ⟨enc, d, s, some ⟨success, t, m, some [], data⟩⟩ new =
          some ⟨enc, d, s, some ⟨if len new > 0 then false else success, t, m, new, data⟩⟩) := by
  refine ⟨?_, ?_, ?_⟩
  · intro enc d s r new
    obtain ⟨success, t, m, errors, data⟩ := r
    cases errors <;> cases new <;>
      simp [AppendErrors, SetErrors, goAppend, len] <;> split_ifs <;> simp
  · intro enc d s success t m data new
    rfl
  · intro enc d s success t m data new
    cases new with
    | none => simp [AppendErrors, SetErrors, goAppend, len]
    | some xs => cases xs <;> simp [AppendErrors, SetErrors, goAppend, len]

/-- C8: on every builder that holds an envelope, SetErrors with at least one
error leaves success=false and the errors equal to the arguments; SetErrors
with zero errors (no argument, or an empty slice spread) leaves success as it
was and the error sequence empty.  Nothing else changes. -/
theorem C8_SetErrors_forces_failure_only_when_given_errors :
    (∀ (enc : JSONEncoder δ ε) (d s : Int) (r : Response δ) (e : ResponseError)
      (es : List ResponseError),
      SetErrors ⟨enc, d, s, some r⟩ (some (e :: es)) =
        some ⟨enc, d, s, some ⟨false, r.Timestamp, r.Message, some (e :: es), r.Data⟩⟩) ∧
    (∀ (enc : JSONEncoder δ ε) (d s : Int) (r : Response δ),
      SetErrors ⟨enc, d, s, some r⟩ none =
          some ⟨enc, d, s, some ⟨r.Success, r.Timestamp, r.Message, none, r.Data⟩⟩ ∧
        SetErrors ⟨enc, d, s, some r⟩ (some []) =
          some ⟨enc, d, s, some ⟨r.Success, r.Timestamp, r.Message, some [], r.Data⟩⟩) := by
  refine ⟨?_, ?_⟩
  · intro enc d s r e es
    simp [SetErrors, len]
  · intro enc d s r
    exact ⟨rfl, rfl⟩

/-- C9, as stated, fails: `NewResponse().AppendError(1, "x").SetErrors().Build()`
returns an envelope with success=false that carries no errors. -/
theorem C9_success_false_without_errors :
    ∃ r : Response Int,
      ((((NewResponse (constantEncoder []) [] 0 : responseBuilderContext Int String).AppendError
          1 "x" >>= fun c => c.SetErrors none) >>= fun c => c.Build 1).map Prod.fst = some r) ∧
      r.Success = false ∧ r.GetErrors = (none, false) ∧
      ¬ (r.Success = true ↔ r.GetErrors.2 = false) :=
  ⟨⟨false, 0, "", none, none⟩, rfl, rfl, rfl, by decide⟩

/-- C9, amended: after every sequence of calls made on a new builder, Build
returns an envelope, and an envelope that carries errors (GetErrors reports
exists=true) has success=false; when no call of the sequence is a SetErrors
with zero errors, the envelope has success=true if and only if it carries no
errors. -/
theorem C9_success_flag_after_any_calls (jsonMarshal : JSONEncoder δ ε)
    (statusCode : List Int) (t0 now : Time) (calls : List (Call δ ε ω)) :
    ∃ context r next, run calls (NewResponse jsonMarshal statusCode t0) = some context ∧
      context.Build now = some (r, next) ∧
      (r.GetErrors.2 = true → r.Success = false) ∧
      (noEmptySetErrors calls = true → (r.Success = true ↔ r.GetErrors.2 = false)) := by
  obtain ⟨context, r, hrun, hr, hinv, hstrict⟩ :=
    run_keeps_success_flag calls (NewResponse jsonMarshal statusCode t0) (EmptyResponse t0) rfl
      (by simp [EmptyResponse, len])
  have hflag : r.GetErrors.2 = true → r.Success = false := by
    intro hE
    rw [GetErrors_exists] at hE
    exact hinv (by simpa using hE)
  refine ⟨context, r, context.Clean [] now, hrun, Build_of_envelope context r now hr, hflag, ?_⟩
  intro hno
  constructor
  · intro hs
    cases hE : r.GetErrors.2
    · rfl
    · rw [hflag hE] at hs; exact absurd hs (by decide)
  · intro hE
    rw [GetErrors_exists] at hE
    exact hstrict hno (fun _ => rfl) (by simpa using hE)

theorem C9_success_flag_after_any_calls_witness :
    ∃ (context : responseBuilderContext Int String) (r : Response Int)
      (next : responseBuilderContext Int String),
      run [(Call.AppendError 404 "not found" : Call Int String Unit), Call.SetData (some 7),
          Call.SetStatusCode 500]
        (NewResponse (constantEncoder []) [] 0) = some context ∧
      context.Build 1 = some (r, next) ∧
      noEmptySetErrors [(Call.AppendError 404 "not found" : Call Int String Unit),
          Call.SetData (some 7), Call.SetStatusCode 500] = true ∧
      (r.Success = true ↔ r.GetErrors.2 = false) := by
  obtain ⟨context, r, next, hrun, hbuild, -, hiff⟩ :=
    C9_success_flag_after_any_calls (constantEncoder [] : JSONEncoder Int String) [] 0 1
      [(Call.AppendError 404 "not found" : Call Int String Unit), Call.SetData (some 7),
        Call.SetStatusCode 500]
  exact ⟨context, r, next, hrun, hbuild, rfl, hiff rfl⟩

/-- C10: Clean(c) sets the current status code to `c` (the first argument when
several are given), Clean() sets it to the default status code `d` of the
builder; both put a fresh empty envelope (success=true, the timestamp read
from the clock, empty message, no errors, no data) in place of the one in
progress, whatever that one held, and leave `d` and the encoder as they were.
On a builder made by NewResponse(c0), Clean() gives the status code `c0`, also
after SetStatusCode. -/
theorem C10_Clean_resets_the_envelope_and_the_status_code :
    (∀ (enc : JSONEncoder δ ε) (d s : Int) (response : Option (Response δ)) (c : Int)
      (more : List Int) (now : Time),
      Clean ⟨enc, d, s, response⟩ (c :: more) now =
        ⟨enc, d, c,
          some { Success := true, Timestamp := now, Message := "", Errors := none,
                 Data := none }⟩) ∧
    (∀ (enc : JSONEncoder δ ε) (d s : Int) (response : Option (Response δ)) (now : Time),
      Clean ⟨enc, d, s, response⟩ [] now =
        ⟨enc, d, d,
          some { Success := true, Timestamp := now, Message := "", Errors := none,
                 Data := none }⟩) ∧
    (∀ (jsonMarshal : JSONEncoder δ ε) (c0 s : Int) (more : List Int) (t0 now : Time),
      Clean (NewResponse jsonMarshal (c0 :: more) t0) [] now =
          ⟨jsonMarshal, c0, c0,
            some { Success := true, Timestamp := now, Message := "", Errors := none,
                   Data := none }⟩ ∧
        Clean ((NewResponse jsonMarshal (c0 :: more) t0).SetStatusCode s) [] now =
          ⟨jsonMarshal, c0, c0,
            some { Success := true, Timestamp := now, Message := "", Errors := none,
                   Data := none }⟩) ∧
    (∀ (enc : JSONEncoder δ ε) (d s : Int) (response : Option (Response δ))
      (statusCode : List Int) (now : Time),
      ((Clean ⟨enc, d, s, response⟩ statusCode now).response.map fun r =>
          (r.Success, r.Timestamp, r.GetMessage, r.GetErrors, r.GetData)) =
        some (true, now, ("", false), (none, false), (none, false))) := by
  refine ⟨?_, ?_, ?_, ?_⟩
  · intro enc d s response c more now
    rfl
  · intro enc d s response now
    rfl
  · intro jsonMarshal c0 s more t0 now
    exact ⟨rfl, rfl⟩
  · intro enc d s response statusCode now
    rfl

/-- C11: SetStatusCode(c) changes the current status code and nothing else:
the default status code, the envelope in progress and the encoder stay as they
were, so a Clean() or a Build made afterwards leaves the default status code
as the current one.  `NewResponse(201).SetStatusCode(500).Clean()` leaves the
current status code 201 and an empty envelope with success=true. -/
theorem C11_SetStatusCode_changes_only_the_status_code :
    (∀ (enc : JSONEncoder δ ε) (d s : Int) (response : Option (Response δ)) (c : Int),
      SetStatusCode ⟨enc, d, s, response⟩ c = ⟨enc, d, c, response⟩) ∧
    (∀ (enc : JSONEncoder δ ε) (d s : Int) (response : Option (Response δ)) (c : Int)
      (now : Time),
      Clean (SetStatusCode ⟨enc, d, s, response⟩ c) [] now =
        ⟨enc, d, d, some (EmptyResponse now)⟩) ∧
    (∀ (enc : JSONEncoder δ ε) (d s : Int) (r : Response δ) (c : Int) (now : Time),
      Build (SetStatusCode ⟨enc, d, s, some r⟩ c) now =
        some (r, ⟨enc, d, d, some (EmptyResponse now)⟩)) ∧
    (∀ (jsonMarshal : JSONEncoder δ ε) (t0 now : Time),
      Clean ((NewResponse jsonMarshal [201] t0).SetStatusCode 500) [] now =
        ⟨jsonMarshal, 201, 201,
          some { Success := true, Timestamp := now, Message := "", Errors := none,
                 Data := none }⟩) := by
  refine ⟨?_, ?_, ?_, ?_⟩
  · intro enc d s response c
    rfl
  · intro enc d s response c now
    rfl
  · intro enc d s r c now
    rfl
  · intro jsonMarshal t0 now
    rfl

/-- C12: NewResponse() gives a builder whose current and default status codes
are both 200, NewResponse(c, ...) one whose current and default status codes
are both the first argument `c`, whatever the further arguments; in both the
encoder is `json.Marshal` and the envelope is empty: success=true, the
timestamp read from the clock, empty message, no errors, no data. -/
theorem C12_NewResponse_starts_from_an_empty_envelope :
    (∀ (jsonMarshal : JSONEncoder δ ε) (t0 : Time),
      NewResponse jsonMarshal [] t0 =
        ⟨jsonMarshal, 200, 200,
          some { Success := true, Timestamp := t0, Message := "", Errors := none,
                 Data := none }⟩) ∧
    (∀ (jsonMarshal : JSONEncoder δ ε) (c : Int) (more : List Int) (t0 : Time),
      NewResponse jsonMarshal (c :: more) t0 =
        ⟨jsonMarshal, c, c,
          some { Success := true, Timestamp := t0, Message := "", Errors := none,
                 Data := none }⟩) ∧
    (∀ t0 : Time, (EmptyResponse t0 : Response δ).GetMessage = ("", false) ∧
      (EmptyResponse t0 : Response δ).GetErrors = (none, false) ∧
      (EmptyResponse t0 : Response δ).GetData = (none, false)) := by
  refine ⟨?_, ?_, ?_⟩
  · intro jsonMarshal t0
    rfl
  · intro jsonMarshal c more t0
    rfl
  · intro t0
    exact ⟨rfl, rfl, rfl⟩

/-- C13: SetJSONEncoder(nil) leaves the builder as it was and
SetJSONEncoder(f), for every `f` that is not nil, installs `f` and changes
nothing else.  When the installed encoder returns the bytes `data` and no
error for the envelope `r` held by the builder, Write sets the header
Content-Type to application/json, writes the status, writes exactly `data` to
the body and returns exactly what the write of the sink returns, its byte
count and its error; this holds for an encoder just installed and for one
kept by SetJSONEncoder(nil).  An installed encoder that fails is the one Write
calls too: its error is what Write returns. -/
theorem C13_Write_uses_the_installed_encoder :
    (∀ (enc : JSONEncoder δ ε) (d s : Int) (response : Option (Response δ)),
      SetJSONEncoder ⟨enc, d, s, response⟩ none = ⟨enc, d, s, response⟩) ∧
    (∀ (enc f : JSONEncoder δ ε) (d s : Int) (response : Option (Response δ)),
      SetJSONEncoder ⟨enc, d, s, response⟩ (some f) = ⟨f, d, s, response⟩) ∧
    (∀ (enc f : JSONEncoder δ ε) (d s : Int) (r : Response δ) (writer : ResponseWriter ε ω)
      (w : ω) (now : Time) (data : List Nat), f r = (data, none) →
      Write (SetJSONEncoder ⟨enc, d, s, some r⟩ (some f)) writer w now =
          some (writer.Write data
              (writer.WriteHeader d (writer.HeaderSet "Content-Type" "application/json" w)),
            ⟨f, d, d,
              some { Success := true, Timestamp := now, Message := "", Errors := none,
                     Data := none }⟩) ∧
        Write (SetJSONEncoder ⟨f, d, s, some r⟩ none) writer w now =
          some (writer.Write data
              (writer.WriteHeader d (writer.HeaderSet "Content-Type" "application/json" w)),
            ⟨f, d, d,
              some { Success := true, Timestamp := now, Message := "", Errors := none,
                     Data := none }⟩)) ∧
    (∀ (enc : JSONEncoder δ ε) (e : ε) (d s : Int) (r : Response δ)
      (writer : ResponseWriter ε ω) (w : ω) (now : Time),
      (Write (SetJSONEncoder ⟨enc, d, s, some r⟩ (some (failingEncoder e))) writer w
          now).map Prod.fst = some ((0, some e), w)) := by
  refine ⟨?_, ?_, ?_, ?_⟩
  · intro enc d s response
    rfl
  · intro enc f d s response
    rfl
  · intro enc f d s r writer w now data h
    constructor
    · simp [Write, Build, Clean, SetJSONEncoder, EmptyResponse, h]
    · simp [Write, Build, Clean, SetJSONEncoder, EmptyResponse, h]
  · intro enc e d s r writer w now
    rfl

theorem C13_Write_uses_the_installed_encoder_witness :
    (constantEncoder [123, 125] : JSONEncoder Int String) (EmptyResponse 0) =
        ([123, 125], none) ∧
      Write (SetJSONEncoder (⟨failingEncoder "unused", 200, 200, some (EmptyResponse 0)⟩ :
          responseBuilderContext Int String) (some (constantEncoder [123, 125])))
          recordingWriter [] 1 =
        some (((2, none), [SinkCall.HeaderSet "Content-Type" "application/json",
            SinkCall.WriteHeader 200, SinkCall.Write [123, 125]]),
          ⟨constantEncoder [123, 125], 200, 200,
            some { Success := true, Timestamp := 1, Message := "", Errors := none,
                   Data := none }⟩) :=
  ⟨rfl, (C13_Write_uses_the_installed_encoder.2.2.1 (failingEncoder "unused")
    (constantEncoder [123, 125]) 200 200 (EmptyResponse 0) recordingWriter [] 1 [123, 125]
    rfl).1⟩

/-- C14: Send returns exactly what the callback returns, nil or an error, and
leaves the builder in the state Build leaves it in; the callback is called
once, in the world the caller is in, with the envelope Build returns. -/
theorem C14_Send_returns_what_the_callback_returns :
    (∀ (enc : JSONEncoder δ ε) (d s : Int) (r : Response δ) (callback : SendFunc δ ε ω)
      (w : ω) (now : Time),
      (Send ⟨enc, d, s, some r⟩ callback w now).map (fun p => p.1) = some (callback d r w) ∧
      (Send ⟨enc, d, s, some r⟩ callback w now).map Prod.snd =
        (Build ⟨enc, d, s, some r⟩ now).map Prod.snd) ∧
    (∀ (enc : JSONEncoder δ ε) (d s : Int) (r : Response δ) (result : Option ε) (w : ω)
      (now : Time),
      (Send ⟨enc, d, s, some r⟩ (fun _ _ v => (result, v)) w now).map (fun p => p.1.1) =
        some result) ∧
    (∀ (jsonMarshal : JSONEncoder δ ε) (statusCode : List Int) (t0 : Time)
      (calls : List (Call δ ε ω)) (callback : SendFunc δ ε ω) (w : ω) (now : Time),
      ∃ context r, run calls (NewResponse jsonMarshal statusCode t0) = some context ∧
        context.Send callback w now =
          some (callback context.defaultStatusCode r w, context.Clean [] now) ∧
        context.Build now = some (r, context.Clean [] now)) := by
  refine ⟨?_, ?_, ?_⟩
  · intro enc d s r callback w now
    exact ⟨rfl, rfl⟩
  · intro enc d s r result w now
    rfl
  · intro jsonMarshal statusCode t0 calls callback w now
    obtain ⟨context, r, hrun, hr⟩ :=
      run_keeps_envelope calls (NewResponse jsonMarshal statusCode t0) (EmptyResponse t0) rfl
    refine ⟨context, r, hrun, ?_, Build_of_envelope context r now hr⟩
    simp [Send, Build_of_envelope context r now hr, Clean]

/-- C17: after every sequence of calls made on a new builder (AppendError,
AppendErrors, SetData, SetErrors, SetJSONEncoder, SetMessage, SetStatusCode,
Clean, Build, Send, Write, in any order and number) the sequence has run to
its end without a nil dereference, the envelope pointer of the builder is not
nil, and every further call returns: each method, and in particular Build,
Send with any callback and Write with any sink, gives a result and leaves a
builder whose envelope pointer is not nil. -/
theorem C17_the_envelope_pointer_is_never_nil (jsonMarshal : JSONEncoder δ ε)
    (statusCode : List Int) (t0 : Time) (calls : List (Call δ ε ω)) :
    ∃ context r, run calls (NewResponse jsonMarshal statusCode t0) = some context ∧
      context.response = some r ∧
      (∀ call : Call δ ε ω, ∃ next r2, call.apply context = some next ∧
        next.response = some r2) ∧
      (∀ now : Time, ∃ next, context.Build now = some (r, next)) ∧
      (∀ (callback : SendFunc δ ε ω) (w : ω) (now : Time),
        ∃ out, context.Send callback w now = some out) ∧
      (∀ (writer : ResponseWriter ε ω) (w : ω) (now : Time),
        ∃ out, context.Write writer w now = some out) := by
  obtain ⟨context, r, hrun, hr⟩ :=
    run_keeps_envelope calls (NewResponse jsonMarshal statusCode t0) (EmptyResponse t0) rfl
  refine ⟨context, r, hrun, hr, fun call => apply_keeps_envelope call context r hr,
    fun now => ⟨_, Build_of_envelope context r now hr⟩, ?_, ?_⟩
  · intro callback w now
    obtain ⟨next, r2, hcall, -⟩ := apply_keeps_envelope (Call.Send callback w now) context r hr
    cases hsend : context.Send callback w now with
    | none => simp [Call.apply, hsend] at hcall
    | some out => exact ⟨out, rfl⟩
  · intro writer w now
    obtain ⟨next, r2, hcall, -⟩ := apply_keeps_envelope (Call.Write writer w now) context r hr
    cases hwrite : context.Write writer w now with
    | none => simp [Call.apply, hwrite] at hcall
    | some out => exact ⟨out, rfl⟩

/-- C18: after every sequence of calls made on a new builder, the envelope
held by the builder, which is the one Build returns, has success=false
whenever its error sequence is not empty: it never has both success=true and
at least one error. -/
theorem C18_errors_present_imply_failure (jsonMarshal : JSONEncoder δ ε)
    (statusCode : List Int) (t0 now : Time) (calls : List (Call δ ε ω)) :
    ∃ context r next, run calls (NewResponse jsonMarshal statusCode t0) = some context ∧
      context.response = some r ∧
      context.Build now = some (r, next) ∧
      (len r.Errors > 0 → r.Success = false) ∧
      ¬ (r.Success = true ∧ 1 ≤ (r.Errors.getD []).length) := by
  obtain ⟨context, r, hrun, hr, hinv, -⟩ :=
    run_keeps_success_flag calls (NewResponse jsonMarshal statusCode t0) (EmptyResponse t0) rfl
      (by simp [EmptyResponse, len])
  refine ⟨context, r, context.Clean [] now, hrun, hr, Build_of_envelope context r now hr,
    hinv, ?_⟩
  rintro ⟨hs, hlen⟩
  have hpos : len r.Errors > 0 := by
    cases hE : r.Errors with
    | none => simp [hE] at hlen
    | some xs => simp only [hE, Option.getD_some] at hlen; simp only [len]; omega
  rw [hinv hpos] at hs
  exact absurd hs (by decide)

/-- C19: Write leaves the builder with a fresh empty envelope and the default
status code as the current one whatever the encoder returns; with an encoder
that fails the builder is left exactly as with one that succeeds, and the
message, errors and data that had been set are no longer in the builder.  So
it is after every sequence of calls made on a new builder. -/
theorem C19_Write_consumes_the_envelope_on_failure_too :
    (∀ (enc : JSONEncoder δ ε) (d s : Int) (r : Response δ) (writer : ResponseWriter ε ω)
      (w : ω) (now : Time),
      (Write ⟨enc, d, s, some r⟩ writer w now).map Prod.snd =
        some ⟨enc, d, d, some (EmptyResponse now)⟩) ∧
    (∀ (e : ε) (d s : Int) (r : Response δ) (writer : ResponseWriter ε ω) (w : ω)
      (now : Time),
      Write ⟨failingEncoder e, d, s, some r⟩ writer w now =
        some (((0, some e), w), ⟨failingEncoder e, d, d,
          some { Success := true, Timestamp := now, Message := "", Errors := none,
                 Data := none }⟩)) ∧
    (∀ (jsonMarshal : JSONEncoder δ ε) (statusCode : List Int) (t0 : Time)
      (calls : List (Call δ ε ω)) (writer : ResponseWriter ε ω) (w : ω) (now : Time),
      ∃ context, run calls (NewResponse jsonMarshal statusCode t0) = some context ∧
        (context.Write writer w now).map Prod.snd =
          some ⟨context.encodeJSON, context.defaultStatusCode, context.defaultStatusCode,
            some (EmptyResponse now)⟩) := by
  have hall : ∀ (enc : JSONEncoder δ ε) (d s : Int) (r : Response δ)
      (writer : ResponseWriter ε ω) (w : ω) (now : Time),
      (Write ⟨enc, d, s, some r⟩ writer w now).map Prod.snd =
        some ⟨enc, d, d, some (EmptyResponse now)⟩ := by
    intro enc d s r writer w now
    simp only [Write, Build, Clean]
    split <;> rfl
  refine ⟨hall, ?_, ?_⟩
  · intro e d s r writer w now
    rfl
  · intro jsonMarshal statusCode t0 calls writer w now
    obtain ⟨context, r, hrun, hr⟩ :=
      run_keeps_envelope calls (NewResponse jsonMarshal statusCode t0) (EmptyResponse t0) rfl
    refine ⟨context, hrun, ?_⟩
    obtain ⟨enc, d, s, response⟩ := context
    simp only at hr
    subst hr
    exact hall enc d s r writer w now

end claims

end httpstd

/-! ## Claims on both generations and on the earlier one -/

/-- C15: in both generations each accessor returns the stored field as it is,
with a flag: the flag of GetMessage is true exactly when the message is not
the empty string, the flag of GetErrors exactly when the error slice has at
least one element (false for the nil slice and for the empty one), the flag of
GetData exactly when the payload is not nil, so the payloads 0, false and the
empty string are reported as present. -/
theorem C15_accessors_return_the_field_and_its_presence {δ : Type} :
    (∀ r : httpstd.Response δ,
      r.GetMessage.1 = r.Message ∧ (r.GetMessage.2 = true ↔ r.Message ≠ "") ∧
      r.GetErrors.1 = r.Errors ∧ (r.GetErrors.2 = true ↔ ∃ e es, r.Errors = some (e :: es)) ∧
      r.GetData.1 = r.Data ∧ (r.GetData.2 = true ↔ ∃ d, r.Data = some d)) ∧
    (∀ r : http_std.Response δ,
      r.GetMessage.1 = r.Message ∧ (r.GetMessage.2 = true ↔ r.Message ≠ "") ∧
      r.GetErrors.1 = r.Errors ∧ (r.GetErrors.2 = true ↔ ∃ e es, r.Errors = some (e :: es)) ∧
      r.GetData.1 = r.Data ∧ (r.GetData.2 = true ↔ ∃ d, r.Data = some d)) ∧
    (∀ (success : Bool) (t : httpstd.Time) (m : String) (data : Option δ),
      (httpstd.Response.mk success t m none data).GetErrors = (none, false) ∧
      (httpstd.Response.mk success t m (some []) data).GetErrors = (some [], false) ∧
      (http_std.Response.mk success t m none data).GetErrors = (none, false) ∧
      (http_std.Response.mk success t m (some []) data).GetErrors = (some [], false)) ∧
    ((httpstd.Response.mk true 0 "" none (some (0 : Int))).GetData = (some 0, true) ∧
      (httpstd.Response.mk true 0 "" none (some false)).GetData = (some false, true) ∧
      (httpstd.Response.mk true 0 "" none (some "")).GetData = (some "", true) ∧
      (http_std.Response.mk true 0 "" none (some (0 : Int))).GetData = (some 0, true) ∧
      (http_std.Response.mk true 0 "" none (some false)).GetData = (some false, true) ∧
      (http_std.Response.mk true 0 "" none (some "")).GetData = (some "", true)) := by
  refine ⟨?_, ?_, ?_, ?_⟩
  · intro r
    obtain ⟨success, t, m, errors, data⟩ := r
    refine ⟨rfl, ?_, rfl, ?_, rfl, ?_⟩
    · simpa [httpstd.Response.GetMessage] using httpstd.utf8ByteSize_pos_iff m
    · cases errors with
      | none => simp [httpstd.Response.GetErrors]
      | some xs => cases xs <;> simp [httpstd.Response.GetErrors, httpstd.len]
    · cases data <;> simp [httpstd.Response.GetData]
  · intro r
    obtain ⟨success, t, m, errors, data⟩ := r
    refine ⟨rfl, ?_, rfl, ?_, rfl, ?_⟩
    · simpa [http_std.Response.GetMessage] using httpstd.utf8ByteSize_pos_iff m
    · cases errors with
      | none => simp [http_std.Response.GetErrors]
      | some xs => cases xs <;> simp [http_std.Response.GetErrors, httpstd.len]
    · cases data <;> simp [http_std.Response.GetData]
  · intro success t m data
    exact ⟨rfl, rfl, rfl, rfl⟩
  · exact ⟨rfl, rfl, rfl, rfl, rfl, rfl⟩

namespace http_std

section claims

variable {δ : Type}

open httpstd (Time)

open responseBuilderContext

/-- C16: what the earlier generation does around a nil envelope pointer.  Build
on a builder whose envelope pointer is nil dereferences it and panics, so
`NewResponse()` followed by Build and Build again panics at the second Build;
Build on a builder that holds an envelope returns it and leaves the pointer
nil.  SetData, SetErrors, SetMessage and AppendErrors called on a nil pointer
first put a fresh empty envelope in place and then return. -/
theorem C16_Build_after_Build_dereferences_nil :
    (∀ s : Int, Build (⟨none, s⟩ : responseBuilderContext δ) = none) ∧
    (∀ t0 : Time,
      ((NewResponse t0 : responseBuilderContext δ).Build >>= fun p => p.2.Build) = none) ∧
    (∀ (r : Response δ) (s : Int), Build ⟨some r, s⟩ = some (r, ⟨none, s⟩)) ∧
    (∀ (s : Int) (data : Option δ) (message : String) (errors : Option (List ResponseError))
      (now : Time),
      SetData ⟨none, s⟩ data now = some ⟨some ⟨true, now, "", none, data⟩, s⟩ ∧
      SetMessage (⟨none, s⟩ : responseBuilderContext δ) message now =
        some ⟨some ⟨true, now, message, none, none⟩, s⟩ ∧
      SetErrors (⟨none, s⟩ : responseBuilderContext δ) errors now =
        some ⟨some ⟨false, now, "", errors, none⟩, s⟩ ∧
      AppendErrors (⟨none, s⟩ : responseBuilderContext δ) errors now =
        some ⟨some ⟨false, now, "", errors, none⟩, s⟩) := by
  refine ⟨?_, ?_, ?_, ?_⟩
  · intro s
    rfl
  · intro t0
    rfl
  · intro r s
    rfl
  · intro s data message errors now
    exact ⟨rfl, rfl, rfl, rfl⟩

/-- C20: in the earlier generation SetData leaves success=true and SetErrors
leaves success=false, whatever the argument and whatever the envelope held
before (a fresh one when the pointer was nil).
`NewResponse().AppendError(code, reason).SetData(d).Build()` returns
success=true with the one error, and `NewResponse().SetErrors().Build()`
returns success=false with no errors. -/
theorem C20_SetData_and_SetErrors_overwrite_the_success_flag :
    (∀ (r : Response δ) (s : Int) (data : Option δ) (now : Time),
      SetData ⟨some r, s⟩ data now =
        some ⟨some ⟨true, r.Timestamp, r.Message, r.Errors, data⟩, s⟩) ∧
    (∀ (s : Int) (data : Option δ) (now : Time),
      SetData ⟨none, s⟩ data now = some ⟨some ⟨true, now, "", none, data⟩, s⟩) ∧
    (∀ (r : Response δ) (s : Int) (errors : Option (List ResponseError)) (now : Time),
      SetErrors ⟨some r, s⟩ errors now =
        some ⟨some ⟨false, r.Timestamp, r.Message, errors, r.Data⟩, s⟩) ∧
    (∀ (s : Int) (errors : Option (List ResponseError)) (now : Time),
      SetErrors (⟨none, s⟩ : responseBuilderContext δ) errors now =
        some ⟨some ⟨false, now, "", errors, none⟩, s⟩) ∧
    (∀ (code : Int) (reason : String) (d : Option δ) (t0 t1 t2 : Time),
      (((NewResponse t0).AppendError code reason t1 >>= fun c => c.SetData d t2)
          >>= fun c => c.Build).map Prod.fst =
        some ⟨true, t0, "", some [{ Code := code, Reason := reason }], d⟩ ∧
      (Response.mk true t0 "" (some [{ Code := code, Reason := reason }]) d).GetErrors.2
        = true) ∧
    (∀ t0 t1 : Time,
      (((NewResponse t0 : responseBuilderContext δ).SetErrors none t1)
          >>= fun c => c.Build).map Prod.fst =
        some ⟨false, t0, "", none, none⟩ ∧
      (Response.mk false t0 "" none (none : Option δ)).GetErrors.2 = false) := by
  refine ⟨?_, ?_, ?_, ?_, ?_, ?_⟩
  · intro r s data now
    rfl
  · intro s data now
    rfl
  · intro r s errors now
    rfl
  · intro s errors now
    rfl
  · intro code reason d t0 t1 t2
    exact ⟨rfl, rfl⟩
  · intro t0 t1
    exact ⟨rfl, rfl⟩

end claims

end http_std
